import Mathlib

/-!
Shallow embedding of the dropimator enrichment pipeline
(`src/dropimator/product_service.py` and `src/dropimator/openai_client.py`).

Python values flowing through the pipeline are modelled as follows:
* JSON values (API envelopes, decoded payloads) become the inductive `Json`;
  JSON numbers are modelled as exact rationals (the source stores integers
  such as `usage.total_tokens`, which rationals represent exactly).
* `None` / possibly-missing values become `Option`.
* Python truthiness (`if not response:` and friends) is modelled explicitly
  by `jsonTruthy` / `optStrTruthy`.
* An uncaught Python exception inside a service function is modelled by the
  function returning `none` at its outer `Option` layer.
* Timestamps (`dt.datetime.utcnow()`) are modelled as an abstract `Nat`
  supplied by the caller.
-/

namespace Dropimator

/-- JSON values, as produced by Python's `json.loads`: objects keep key
insertion order and have pairwise distinct keys (later duplicates replace
earlier ones during parsing, as in a Python `dict`). -/
inductive Json where
  | null
  | bool (b : Bool)
  | num (q : Rat)
  | str (s : String)
  | arr (elems : List Json)
  | obj (entries : List (String × Json))
deriving Repr

/-- Characters treated as whitespace by Python's `str.strip()` (restricted to
the ASCII whitespace actually exercised by this code base). -/
def isPySpace (c : Char) : Bool :=
  c = ' ' || c = '\t' || c = '\n' || c = '\r' || c = '\x0b' || c = '\x0c'

/-- Python `str.strip()`. -/
def pyStrip (s : String) : String :=
  ⟨((s.data.dropWhile isPySpace).reverse.dropWhile isPySpace).reverse⟩

/-- List prefix test (`str.startswith`). -/
def listIsPrefixOf (pre s : List Char) : Bool :=
  decide (s.take pre.length = pre)

/-- Python `str.startswith`. -/
def strStartsWith (s pre : String) : Bool :=
  listIsPrefixOf pre.data s.data

/-- Python `str.endswith`. -/
def strEndsWith (s suf : String) : Bool :=
  listIsPrefixOf suf.data.reverse s.data.reverse

/-- Python `str.splitlines` (restricted to the `\n`, `\r\n` and `\r`
terminators exercised by this code base): no trailing empty line for a
trailing terminator, and the empty string yields no lines. -/
def splitlinesAux : List Char → List Char → List String
  | [], acc => [⟨acc.reverse⟩]
  | '\r' :: '\n' :: rest, acc =>
    String.mk acc.reverse :: (if rest.isEmpty then [] else splitlinesAux rest [])
  | '\n' :: rest, acc =>
    String.mk acc.reverse :: (if rest.isEmpty then [] else splitlinesAux rest [])
  | '\r' :: rest, acc =>
    String.mk acc.reverse :: (if rest.isEmpty then [] else splitlinesAux rest [])
  | c :: rest, acc => splitlinesAux rest (c :: acc)

/-- Python `str.splitlines`. -/
def pySplitlines (s : String) : List String :=
  if s.data.isEmpty then [] else splitlinesAux s.data []

/-- Python `"\n".join(lines)`. -/
def joinLines : List String → String
  | [] => ""
  | [l] => l
  | l :: ls => l ++ "\n" ++ joinLines ls

/-- Whitespace skipped between JSON tokens by `json.loads`. -/
def skipJsonWs (cs : List Char) : List Char :=
  cs.dropWhile (fun c => c = ' ' || c = '\t' || c = '\n' || c = '\r')

/-- Hexadecimal digit value (by code point), for `\uXXXX` escapes. -/
def hexVal? (c : Char) : Option Nat :=
  let n := c.toNat
  if 48 ≤ n && n ≤ 57 then some (n - 48)
  else if 97 ≤ n && n ≤ 102 then some (n - 87)
  else if 65 ≤ n && n ≤ 70 then some (n - 55)
  else none

/-- Body of a JSON string literal, after the opening quote.  Accepts the
standard escapes; `\uXXXX` is supported for Unicode scalar values (the
surrogate-pair forms never occur in this pipeline's data).  Control
characters below `0x20` are rejected, as in `json.loads`. -/
def jsonStringLoop : List Char → List Char → Option (String × List Char)
  | [], _ => none
  | '"' :: rest, acc => some (⟨acc.reverse⟩, rest)
  | '\\' :: 'u' :: h1 :: h2 :: h3 :: h4 :: rest, acc =>
    match hexVal? h1, hexVal? h2, hexVal? h3, hexVal? h4 with
    | some a, some b, some c, some d =>
      let n := ((a * 16 + b) * 16 + c) * 16 + d
      if n < 0xd800 || 0xe000 ≤ n then jsonStringLoop rest (Char.ofNat n :: acc)
      else none
    | _, _, _, _ => none
  | '\\' :: e :: rest, acc =>
    if e = '"' then jsonStringLoop rest ('"' :: acc)
    else if e = '\\' then jsonStringLoop rest ('\\' :: acc)
    else if e = '/' then jsonStringLoop rest ('/' :: acc)
    else if e = 'b' then jsonStringLoop rest ('\x08' :: acc)
    else if e = 'f' then jsonStringLoop rest ('\x0c' :: acc)
    else if e = 'n' then jsonStringLoop rest ('\n' :: acc)
    else if e = 'r' then jsonStringLoop rest ('\r' :: acc)
    else if e = 't' then jsonStringLoop rest ('\t' :: acc)
    else none
  | c :: rest, acc =>
    if c.toNat < 0x20 then none else jsonStringLoop rest (c :: acc)

/-- Digit run: accumulated value, number of digits, rest. -/
def digitsLoop : List Char → Nat → Nat → Nat × Nat × List Char
  | c :: rest, v, n =>
    if '0' ≤ c && c ≤ '9' then digitsLoop rest (v * 10 + (c.toNat - '0'.toNat)) (n + 1)
    else (v, n, c :: rest)
  | [], v, n => (v, n, [])

/-- Assemble a rational from sign, integer part, fractional digits and
decimal exponent. -/
def ratOfParts (neg : Bool) (ip fp fdigits : Nat) (ex : Int) : Rat :=
  let base : Rat := ((ip * 10 ^ fdigits + fp : Nat) : Rat) / ((10 ^ fdigits : Nat) : Rat)
  let scaled := if 0 ≤ ex then base * (10 : Rat) ^ ex.toNat else base / (10 : Rat) ^ (-ex).toNat
  if neg then -scaled else scaled

/-- JSON number token (`-?(0|[1-9][0-9]*)(\.[0-9]+)?([eE][+-]?[0-9]+)?`),
evaluated exactly as a rational.  (`json.loads` represents numbers with a
fraction or exponent as binary doubles; the payloads of this pipeline only
carry integers, which both representations treat exactly.) -/
def jsonNumber? (cs : List Char) : Option (Rat × List Char) :=
  let (neg, cs1) := match cs with
    | '-' :: rest => (true, rest)
    | _ => (false, cs)
  let (ip, idigits, cs2) := digitsLoop cs1 0 0
  if idigits = 0 then none
  else if 1 < idigits && strStartsWith ⟨cs1⟩ "0" then none
  else
    let (fp, fdigits, cs3) := match cs2 with
      | '.' :: rest => digitsLoop rest 0 0
      | _ => (0, 0, cs2)
    if (match cs2 with | '.' :: _ => fdigits == 0 | _ => false) then none
    else
      match cs3 with
      | 'e' :: rest | 'E' :: rest =>
        let (eneg, rest1) := match rest with
          | '-' :: r => (true, r)
          | '+' :: r => (false, r)
          | _ => (false, rest)
        let (ev, edigits, cs4) := digitsLoop rest1 0 0
        if edigits = 0 then none
        else
          let ex : Int := if eneg then -(ev : Int) else (ev : Int)
          some (ratOfParts neg ip fp fdigits ex, cs4)
      | _ => some (ratOfParts neg ip fp fdigits 0, cs3)

/-- Insert a key into an object under construction, Python-`dict` style:
an existing key keeps its position but takes the new value. -/
def insertKV : List (String × Json) → String → Json → List (String × Json)
  | [], k, v => [(k, v)]
  | (k', v') :: rest, k, v =>
    if k' = k then (k', v) :: rest else (k', v') :: insertKV rest k v

mutual

/-- Recursive-descent JSON value parser (`json.loads` grammar), fuelled. -/
def jsonValue (fuel : Nat) (cs : List Char) : Option (Json × List Char) :=
  match fuel with
  | 0 => none
  | fuel + 1 =>
    match skipJsonWs cs with
    | '\x7b' :: rest =>
      match skipJsonWs rest with
      | '\x7d' :: rest2 => some (Json.obj [], rest2)
      | rest2 => jsonMembers fuel rest2 []
    | '[' :: rest =>
      match skipJsonWs rest with
      | ']' :: rest2 => some (Json.arr [], rest2)
      | rest2 => jsonElements fuel rest2 []
    | '"' :: rest =>
      match jsonStringLoop rest [] with
      | some (s, rest2) => some (Json.str s, rest2)
      | none => none
    | 't' :: 'r' :: 'u' :: 'e' :: rest => some (Json.bool true, rest)
    | 'f' :: 'a' :: 'l' :: 's' :: 'e' :: rest => some (Json.bool false, rest)
    | 'n' :: 'u' :: 'l' :: 'l' :: rest => some (Json.null, rest)
    | rest =>
      match jsonNumber? rest with
      | some (q, rest2) => some (Json.num q, rest2)
      | none => none
termination_by structural fuel

/-- Members of a JSON object, after `{` (and not facing `}`). -/
def jsonMembers (fuel : Nat) (cs : List Char) (acc : List (String × Json)) :
    Option (Json × List Char) :=
  match fuel with
  | 0 => none
  | fuel + 1 =>
    match skipJsonWs cs with
    | '"' :: rest =>
      match jsonStringLoop rest [] with
      | some (k, rest2) =>
        match skipJsonWs rest2 with
        | ':' :: rest3 =>
          match jsonValue fuel rest3 with
          | some (v, rest4) =>
            let acc := insertKV acc k v
            match skipJsonWs rest4 with
            | ',' :: rest5 => jsonMembers fuel rest5 acc
            | '\x7d' :: rest5 => some (Json.obj acc, rest5)
            | _ => none
          | none => none
        | _ => none
      | none => none
    | _ => none
termination_by structural fuel

/-- Elements of a JSON array, after `[` (and not facing `]`). -/
def jsonElements (fuel : Nat) (cs : List Char) (acc : List Json) :
    Option (Json × List Char) :=
  match fuel with
  | 0 => none
  | fuel + 1 =>
    match jsonValue fuel cs with
    | some (v, rest) =>
      match skipJsonWs rest with
      | ',' :: rest2 => jsonElements fuel rest2 (acc ++ [v])
      | ']' :: rest2 => some (Json.arr (acc ++ [v]), rest2)
      | _ => none
    | none => none
termination_by structural fuel

end

/-- Python `json.loads`: parse one JSON value and require only whitespace
after it; anything else raises `JSONDecodeError`, modelled as `none`. -/
def json_loads (s : String) : Option Json :=
  match jsonValue (2 * s.data.length + 4) s.data with
  | some (v, rest) => if (skipJsonWs rest).isEmpty then some v else none
  | none => none

/-- Model of `openai_client.clean_json_block`: strip the surrounding whitespace; when
the result both starts and ends with a triple backtick, drop every line that
starts with a triple backtick, rejoin the rest with newlines and strip
again. -/
def clean_json_block (content : String) : String :=
  let stripped := pyStrip content
  if strStartsWith stripped "```" && strEndsWith stripped "```" then
    pyStrip (joinLines ((pySplitlines stripped).filter
      (fun l => !(strStartsWith l "```"))))
  else stripped

/-- Model of `openai_client.parse_json_content`: `json.loads` over the cleaned block;
`JSONDecodeError` is caught and logged, yielding `none`. -/
def parse_json_content (content : String) : Option Json :=
  json_loads (clean_json_block content)

/-- First value for a key in an object's entry list (`dict` lookup). -/
def alistGet? : List (String × Json) → String → Option Json
  | [], _ => none
  | (k', v) :: rest, k => if k' = k then some v else alistGet? rest k

/-- Model of `openai_client.extract_message_content`:
`response["choices"][0]["message"]["content"]`, with `KeyError`,
`IndexError` and `TypeError` caught to `none`.  Subscripting a non-object
with a string key, indexing a non-sequence, and a missing key all raise one
of those three exceptions, so every non-conforming shape collapses to
`none`; the extracted content is returned whatever JSON value it is. -/
def extract_message_content (response : Json) : Option Json :=
  match response with
  | Json.obj kvs =>
    match alistGet? kvs "choices" with
    | some (Json.arr (first :: _)) =>
      match first with
      | Json.obj mkvs =>
        match alistGet? mkvs "message" with
        | some (Json.obj ckvs) => alistGet? ckvs "content"
        | _ => none
      | _ => none
    | _ => none
  | _ => none

/-- Python truthiness of a JSON value (`if not x` in the source):
`None`, `False`, `0`, `""`, `[]` and `{}` are falsy. -/
def jsonTruthy : Json → Bool
  | Json.null => false
  | Json.bool b => b
  | Json.num q => q != 0
  | Json.str s => s != ""
  | Json.arr xs => !xs.isEmpty
  | Json.obj kvs => !kvs.isEmpty

/-- Python truthiness of an optional string column. -/
def optStrTruthy : Option String → Bool
  | some s => s != ""
  | none => false

/-- Python truthiness of an optional JSON value. -/
def optJsonTruthy : Option Json → Bool
  | some j => jsonTruthy j
  | none => false

/-- The `products` table row (`models.Product`).  `category` holds a JSON
value because `process_csv_row` assigns the decoded `payload.get("category")`
to it unchanged; in the database it is a string.  Timestamps are abstract
ticks. -/
structure Product where
  sku : String
  manufacturer_name : Option String
  name : Option String
  qty : Option String
  flavour : Option String
  weight : Option String
  img_url : Option String
  retail_price : Option Rat
  description : Option String
  meta_title : Option String
  meta_description : Option String
  created_at : Nat
  updated_at : Nat
  openai_response : Option Json
  total_tokens : Option Json
  category : Option Json
deriving Repr

/-- Model of `product_service.normalise_string`. -/
def normalise_string : Option String → Option String
  | none => none
  | some s =>
    let result := pyStrip s
    if result = "" then none else some result

/-- The relevant fragment of Python's `float()`: an optionally signed
decimal literal with optional fractional part and optional exponent,
evaluated exactly as a rational (the special forms `inf`/`nan`/underscored
digits never appear in this feed's data and are not modelled). -/
def pyFloat? (s : String) : Option Rat :=
  let (neg, cs1) := match s.data with
    | '-' :: rest => (true, rest)
    | '+' :: rest => (false, rest)
    | cs => (false, cs)
  let (ip, idigits, cs2) := digitsLoop cs1 0 0
  let (fp, fdigits, cs3) := match cs2 with
    | '.' :: rest => digitsLoop rest 0 0
    | _ => (0, 0, cs2)
  let hasDot : Bool := match cs2 with | '.' :: _ => true | _ => false
  if idigits = 0 && (fdigits = 0 || !hasDot) then none
  else
    match cs3 with
    | [] => some (ratOfParts neg ip fp fdigits 0)
    | 'e' :: rest | 'E' :: rest =>
      let (eneg, rest1) := match rest with
        | '-' :: r => (true, r)
        | '+' :: r => (false, r)
        | _ => (false, rest)
      let (ev, edigits, cs4) := digitsLoop rest1 0 0
      if edigits = 0 || !cs4.isEmpty then none
      else some (ratOfParts neg ip fp fdigits (if eneg then -(ev : Int) else (ev : Int)))
    | _ => none

/-- Model of `product_service.parse_price`: replace `,` with `.` (a single-character
replacement, modelled character-wise), strip, and parse as a float;
`ValueError` is caught with a warning, yielding `none`. -/
def parse_price : Option String → Option Rat
  | none => none
  | some v =>
    let candidate := pyStrip ⟨v.data.map (fun c => if c = ',' then '.' else c)⟩
    if candidate = "" then none else pyFloat? candidate

/-- Model of `response.get("usage", \x7b\x7d).get("total_tokens")`.  The outer `Option`
is the exception layer: calling `.get` on a non-`dict` `usage` value raises
`AttributeError`, which the source does not catch. -/
def usage_total_tokens (response : Json) : Option (Option Json) :=
  match response with
  | Json.obj kvs =>
    match (alistGet? kvs "usage").getD (Json.obj []) with
    | Json.obj ukvs => some (alistGet? ukvs "total_tokens")
    | _ => none
  | _ => none

/-- Result of `product_service.generate_product_category`: the returned
category value, the (possibly mutated) product, and whether
`request_chat_completion` was invoked. -/
structure CategoryResult where
  category : Option Json
  product : Product
  apiCalled : Bool
deriving Repr

/-- The body of `generate_product_category` past the idempotence guard:
prompt construction (pure, unmodelled), the completion request — whose
outcome, exceptions already caught to `None`, is the `env` argument — and
the extract/decode/record-keeping chain.  The outer `Option` is the
uncaught-exception layer: `content.strip()` on a non-string and
`payload.get` on a non-`dict` raise `AttributeError`/`TypeError`
uncaught. -/
def generate_category_api (env : Option Json) (p : Product) : Option CategoryResult :=
  match env with
  | none => some ⟨none, p, true⟩
  | some response =>
    if jsonTruthy response then
      match extract_message_content response with
      | none => some ⟨none, p, true⟩
      | some content =>
        if jsonTruthy content then
          match content with
          | Json.str s =>
            match parse_json_content s with
            | none => some ⟨none, p, true⟩
            | some payload =>
              if jsonTruthy payload then
                match payload with
                | Json.obj kvs =>
                  match usage_total_tokens response with
                  | none => none
                  | some tt =>
                    some ⟨alistGet? kvs "category",
                      { p with openai_response := some response, total_tokens := tt },
                      true⟩
                | _ => none
              else some ⟨none, p, true⟩
          | _ => none
        else some ⟨none, p, true⟩
    else some ⟨none, p, true⟩

/-- Model of `product_service.generate_product_category`.  `env` stands for the value
`request_chat_completion` would return (it catches every exception to
`None`), so the function is deterministic in `env`. -/
def generate_product_category (env : Option Json) (p : Product) : Option CategoryResult :=
  match p.category with
  | some c =>
    if jsonTruthy c then some ⟨some c, p, false⟩
    else generate_category_api env p
  | none => generate_category_api env p

/-- Model of `product_service.get_first_present`: first key whose value is a string
with non-whitespace content; the value is returned unstripped. -/
def get_first_present (kvs : List (String × Json)) : List String → Option String
  | [] => none
  | k :: keys =>
    match alistGet? kvs k with
    | some (Json.str v) =>
      if pyStrip v = "" then get_first_present kvs keys else some v
    | _ => get_first_present kvs keys

/-- Result of `product_service.enrich_product_marketing`. -/
structure MarketingResult where
  updated : Bool
  product : Product
  apiCalled : Bool
deriving Repr

/-- Line `if description: product.description = description; updated = True`. -/
def applyDescription (d? : Option String) (st : Product × Bool) : Product × Bool :=
  match d? with
  | some d => ({ st.1 with description := some d }, true)
  | none => st

/-- Line `if meta_title: product.meta_title = meta_title; updated = True`. -/
def applyMetaTitle (t? : Option String) (st : Product × Bool) : Product × Bool :=
  match t? with
  | some t => ({ st.1 with meta_title := some t }, true)
  | none => st

/-- Line `if meta_description: ...; updated = True`. -/
def applyMetaDescription (m? : Option String) (st : Product × Bool) : Product × Bool :=
  match m? with
  | some m => ({ st.1 with meta_description := some m }, true)
  | none => st

/-- Line `if isinstance(weight, str) and weight.strip(): product.weight =
weight.strip(); updated = True`. -/
def applyWeight (w? : Option Json) (st : Product × Bool) : Product × Bool :=
  match w? with
  | some (Json.str w) =>
    if pyStrip w = "" then st else ({ st.1 with weight := some (pyStrip w) }, true)
  | _ => st

/-- Lines 114–138 of `product_service.py`: look up the alias lists in the
decoded payload, apply every non-empty result in source order, and on any
update refresh `updated_at` and record the envelope and token count. -/
def apply_marketing_fields (kvs : List (String × Json)) (response : Json)
    (now : Nat) (p : Product) : Option (Bool × Product) :=
  let st := applyWeight (alistGet? kvs "weight")
    (applyMetaDescription (get_first_present kvs ["meta_description", "meta_descriere"])
      (applyMetaTitle (get_first_present kvs ["meta_title", "meta_titlu"])
        (applyDescription (get_first_present kvs ["html_description", "descriere"])
          (p, false))))
  if st.2 then
    match usage_total_tokens response with
    | none => none
    | some tt =>
      some (true,
        { st.1 with
          updated_at := now
          openai_response := some response
          total_tokens := tt })
  else some (false, st.1)

/-- The body of `enrich_product_marketing` past the idempotence guard. -/
def enrich_marketing_api (env : Option Json) (now : Nat) (p : Product) :
    Option MarketingResult :=
  match env with
  | none => some ⟨false, p, true⟩
  | some response =>
    if jsonTruthy response then
      match extract_message_content response with
      | none => some ⟨false, p, true⟩
      | some content =>
        if jsonTruthy content then
          match content with
          | Json.str s =>
            match parse_json_content s with
            | none => some ⟨false, p, true⟩
            | some payload =>
              if jsonTruthy payload then
                match payload with
                | Json.obj kvs =>
                  match apply_marketing_fields kvs response now p with
                  | some (u, p') => some ⟨u, p', true⟩
                  | none => none
                | _ => none
              else some ⟨false, p, true⟩
          | _ => none
        else some ⟨false, p, true⟩
    else some ⟨false, p, true⟩

/-- Model of `product_service.enrich_product_marketing`. -/
def enrich_product_marketing (env : Option Json) (now : Nat) (p : Product) :
    Option MarketingResult :=
  if optStrTruthy p.description && optStrTruthy p.meta_title
      && optStrTruthy p.meta_description then
    some ⟨false, p, false⟩
  else enrich_marketing_api env now p

/-- One CSV feed row, as `row.get` sees it (`None` for a missing column). -/
structure Row where
  sku : Option String
  manufacturer_name : Option String
  name : Option String
  qty : Option String
  flavour : Option String
  weight : Option String
  img_url : Option String
  retail_price : Option String
deriving Repr

/-- Line `if value is not None: field = value` — keep the old value when the
normalized one is absent. -/
def applyOpt (new old : Option α) : Option α :=
  match new with
  | some v => some v
  | none => old

/-- Model of `Product(sku=sku)` with the column defaults of `models.Product`. -/
def blankProduct (sku : String) (now : Nat) : Product where
  sku := sku
  manufacturer_name := none
  name := none
  qty := none
  flavour := none
  weight := none
  img_url := none
  retail_price := none
  description := none
  meta_title := none
  meta_description := none
  created_at := now
  updated_at := now
  openai_response := none
  total_tokens := none
  category := none

/-- Outcome of one feed row: skipped (no SKU) or committed as `p`. -/
inductive RowOutcome where
  | skipped
  | upserted (p : Product)
deriving Repr

/-- Lines `category = generate_product_category(product)` and
`if category: product.category = category` of `process_csv_row`. -/
def assignCategory (c? : Option Json) (p : Product) : Product :=
  match c? with
  | some c => if jsonTruthy c then { p with category := some c } else p
  | none => p

/-- Model of `product_service.process_csv_row`: normalise the SKU (skip the row when
absent), fetch or create the product, apply each present normalized field,
refresh `updated_at`, run the classification step and assign a truthy
category.  `stored` is the session's lookup result for the SKU; the outer
`Option` is the uncaught-exception layer inherited from the classification
step. -/
def process_csv_row (env : Option Json) (row : Row) (stored : Option Product)
    (now : Nat) : Option RowOutcome :=
  match normalise_string row.sku with
  | none => some RowOutcome.skipped
  | some sku =>
    let p := match stored with
      | some q => q
      | none => blankProduct sku now
    let p := { p with
      manufacturer_name := applyOpt (normalise_string row.manufacturer_name) p.manufacturer_name
      name := applyOpt (normalise_string row.name) p.name
      qty := applyOpt (normalise_string row.qty) p.qty
      flavour := applyOpt (normalise_string row.flavour) p.flavour
      weight := applyOpt (normalise_string row.weight) p.weight
      img_url := applyOpt (normalise_string row.img_url) p.img_url
      retail_price := applyOpt (parse_price row.retail_price) p.retail_price
      updated_at := now }
    match generate_product_category env p with
    | none => none
    | some r => some (RowOutcome.upserted (assignCategory r.category r.product))

/-! Helper lemmas about the enrichment pipeline. -/

/-- One of the three pipeline stages behind the guard yields an absent
result: the completion request itself, text extraction, or JSON decoding. -/
def stageAbsent (env : Option Json) : Prop :=
  env = none ∨
  (∃ r, env = some r ∧ extract_message_content r = none) ∨
  (∃ r s, env = some r ∧ extract_message_content r = some (Json.str s) ∧
    parse_json_content s = none)

theorem parse_json_content_empty : parse_json_content "" = none := rfl

theorem generate_category_api_stage_absent (env : Option Json) (p : Product)
    (h : stageAbsent env) : generate_category_api env p = some ⟨none, p, true⟩ := by
  rcases h with h | ⟨r, henv, hex⟩ | ⟨r, s, henv, hex, hp⟩
  · subst h; rfl
  · subst henv
    simp only [generate_category_api, hex]
    split <;> rfl
  · subst henv
    simp only [generate_category_api, hex]
    split
    · by_cases hs : s = ""
      · subst hs; rfl
      · have hts : jsonTruthy (Json.str s) = true := by
          simp [jsonTruthy, hs]
        rw [hts]
        simp [hp]
    · rfl

/-- The classification step either leaves the product alone or only records
the envelope and token count on it. -/
theorem generate_category_api_shape (env : Option Json) (p : Product)
    (r : CategoryResult) (h : generate_category_api env p = some r) :
    r.product = p ∨ ∃ response tt, env = some response ∧
      r.product = { p with openai_response := some response, total_tokens := tt } := by
  unfold generate_category_api at h
  repeat' split at h
  all_goals first
    | (cases h; exact Or.inl rfl)
    | (cases h; exact Or.inr ⟨_, _, rfl, rfl⟩)
    | cases h

theorem generate_product_category_shape (env : Option Json) (p : Product)
    (r : CategoryResult) (h : generate_product_category env p = some r) :
    r.product = p ∨ ∃ response tt, env = some response ∧
      r.product = { p with openai_response := some response, total_tokens := tt } := by
  unfold generate_product_category at h
  repeat' split at h
  · cases h; exact Or.inl rfl
  · exact generate_category_api_shape env p r h
  · exact generate_category_api_shape env p r h

theorem generate_guard_not_taken (env : Option Json) (p : Product)
    (h : optJsonTruthy p.category = false) :
    generate_product_category env p = generate_category_api env p := by
  unfold generate_product_category
  cases hc : p.category with
  | none => rfl
  | some c =>
    rw [hc] at h
    simp only [optJsonTruthy] at h
    simp [h]

theorem enrich_marketing_api_stage_absent (env : Option Json) (now : Nat)
    (p : Product) (h : stageAbsent env) :
    enrich_marketing_api env now p = some ⟨false, p, true⟩ := by
  rcases h with h | ⟨r, henv, hex⟩ | ⟨r, s, henv, hex, hp⟩
  · subst h; rfl
  · subst henv
    simp only [enrich_marketing_api, hex]
    split <;> rfl
  · subst henv
    simp only [enrich_marketing_api, hex]
    split
    · by_cases hs : s = ""
      · subst hs; rfl
      · have hts : jsonTruthy (Json.str s) = true := by
          simp [jsonTruthy, hs]
        rw [hts]
        simp [hp]
    · rfl

theorem applyDescription_snd_false (d? : Option String) (st : Product × Bool)
    (h : (applyDescription d? st).2 = false) : applyDescription d? st = st := by
  cases d? <;> simp_all [applyDescription]

theorem applyMetaTitle_snd_false (t? : Option String) (st : Product × Bool)
    (h : (applyMetaTitle t? st).2 = false) : applyMetaTitle t? st = st := by
  cases t? <;> simp_all [applyMetaTitle]

theorem applyMetaDescription_snd_false (m? : Option String) (st : Product × Bool)
    (h : (applyMetaDescription m? st).2 = false) : applyMetaDescription m? st = st := by
  cases m? <;> simp_all [applyMetaDescription]

theorem applyWeight_snd_false (w? : Option Json) (st : Product × Bool)
    (h : (applyWeight w? st).2 = false) : applyWeight w? st = st := by
  rcases w? with _ | jv
  · rfl
  · cases jv <;> try rfl
    rename_i w
    by_cases hw : pyStrip w = ""
    · simp [applyWeight, hw]
    · simp [applyWeight, hw] at h

/-- No field accepted means no mutation at all in the application phase. -/
theorem apply_marketing_fields_no_update (kvs : List (String × Json))
    (response : Json) (now : Nat) (p p' : Product)
    (h : apply_marketing_fields kvs response now p = some (false, p')) :
    p' = p := by
  simp only [apply_marketing_fields] at h
  split at h
  · split at h <;> simp_all
  · rename_i hfalse
    simp only [Bool.not_eq_true] at hfalse
    simp only [Option.some.injEq, Prod.mk.injEq, true_and] at h
    subst h
    have h4 := applyWeight_snd_false _ _ hfalse
    rw [h4] at hfalse ⊢
    have h3 := applyMetaDescription_snd_false _ _ hfalse
    rw [h3] at hfalse ⊢
    have h2 := applyMetaTitle_snd_false _ _ hfalse
    rw [h2] at hfalse ⊢
    have h1 := applyDescription_snd_false _ _ hfalse
    rw [h1]

/-- A marketing step that reports no change did not touch the product. -/
theorem enrich_no_update_frame (env : Option Json) (now : Nat) (p : Product)
    (r : MarketingResult) (h : enrich_product_marketing env now p = some r)
    (hu : r.updated = false) : r.product = p := by
  unfold enrich_product_marketing enrich_marketing_api at h
  repeat' split at h
  all_goals try (cases h; rfl)
  all_goals try (cases h)
  rename_i x u p' heq
  have hu' : u = false := hu
  subst hu'
  exact apply_marketing_fields_no_update _ _ _ _ _ heq

theorem assignCategory_frame (c? : Option Json) (p : Product) :
    (assignCategory c? p).sku = p.sku ∧
    (assignCategory c? p).manufacturer_name = p.manufacturer_name ∧
    (assignCategory c? p).name = p.name ∧
    (assignCategory c? p).qty = p.qty ∧
    (assignCategory c? p).flavour = p.flavour ∧
    (assignCategory c? p).weight = p.weight ∧
    (assignCategory c? p).img_url = p.img_url ∧
    (assignCategory c? p).retail_price = p.retail_price ∧
    (assignCategory c? p).description = p.description ∧
    (assignCategory c? p).meta_title = p.meta_title ∧
    (assignCategory c? p).meta_description = p.meta_description ∧
    (assignCategory c? p).created_at = p.created_at ∧
    (assignCategory c? p).updated_at = p.updated_at := by
  rcases c? with _ | c
  · simp [assignCategory]
  · by_cases hc : jsonTruthy c = true <;> simp [assignCategory, hc]

/-- Field-level description of a committed upsert over an existing product:
every feed-derived column is the present-normalized value or the stored one,
and `updated_at` is refreshed. -/
theorem process_csv_row_fields (env : Option Json) (row : Row) (now : Nat)
    (p p' : Product)
    (h : process_csv_row env row (some p) now = some (RowOutcome.upserted p')) :
    p'.manufacturer_name = applyOpt (normalise_string row.manufacturer_name) p.manufacturer_name ∧
    p'.name = applyOpt (normalise_string row.name) p.name ∧
    p'.qty = applyOpt (normalise_string row.qty) p.qty ∧
    p'.flavour = applyOpt (normalise_string row.flavour) p.flavour ∧
    p'.weight = applyOpt (normalise_string row.weight) p.weight ∧
    p'.img_url = applyOpt (normalise_string row.img_url) p.img_url ∧
    p'.retail_price = applyOpt (parse_price row.retail_price) p.retail_price ∧
    p'.updated_at = now := by
  unfold process_csv_row at h
  split at h
  · injection h with h'
    cases h'
  · dsimp only at h
    split at h
    · exact Option.noConfusion h
    · rename_i r heq
      have hp' : assignCategory r.category r.product = p' := by
        simp only [Option.some.injEq, RowOutcome.upserted.injEq] at h
        exact h
      rw [← hp']
      have hfields :
          r.product.manufacturer_name = applyOpt (normalise_string row.manufacturer_name) p.manufacturer_name ∧
          r.product.name = applyOpt (normalise_string row.name) p.name ∧
          r.product.qty = applyOpt (normalise_string row.qty) p.qty ∧
          r.product.flavour = applyOpt (normalise_string row.flavour) p.flavour ∧
          r.product.weight = applyOpt (normalise_string row.weight) p.weight ∧
          r.product.img_url = applyOpt (normalise_string row.img_url) p.img_url ∧
          r.product.retail_price = applyOpt (parse_price row.retail_price) p.retail_price ∧
          r.product.updated_at = now := by
        rcases generate_product_category_shape _ _ _ heq with hprod | ⟨resp, tt, henv, hprod⟩ <;>
          rw [hprod] <;> exact ⟨rfl, rfl, rfl, rfl, rfl, rfl, rfl, rfl⟩
      obtain ⟨f1, f2, f3, f4, f5, f6, f7, f8⟩ := hfields
      obtain ⟨g0, g1, g2, g3, g4, g5, g6, g7, g8, g9, g10, g11, g12⟩ :=
        assignCategory_frame r.category r.product
      exact ⟨g1.trans f1, g2.trans f2, g3.trans f3, g4.trans f4, g5.trans f5,
        g6.trans f6, g7.trans f7, g12.trans f8⟩

/-- Keeping an already-present optional value present. -/
theorem applyOpt_ne_none (new old : Option α) (h : old ≠ none) :
    applyOpt new old ≠ none := by
  cases new <;> simp [applyOpt, h]

theorem generate_guard_taken (env : Option Json) (p : Product) (c : Json)
    (hc : p.category = some c) (ht : jsonTruthy c = true) :
    generate_product_category env p = some ⟨some c, p, false⟩ := by
  unfold generate_product_category
  rw [hc]
  simp [ht]

theorem enrich_guard_taken (env : Option Json) (now : Nat) (p : Product)
    (h1 : optStrTruthy p.description = true) (h2 : optStrTruthy p.meta_title = true)
    (h3 : optStrTruthy p.meta_description = true) :
    enrich_product_marketing env now p = some ⟨false, p, false⟩ := by
  unfold enrich_product_marketing
  simp [h1, h2, h3]

/-- A marketing run whose envelope decodes to a non-empty JSON object reaches
the field-application phase. -/
theorem enrich_pipeline (p : Product) (resp : Json) (s : String)
    (kvs : List (String × Json)) (now : Nat)
    (hg : (optStrTruthy p.description && optStrTruthy p.meta_title
      && optStrTruthy p.meta_description) = false)
    (htr : jsonTruthy resp = true)
    (hex : extract_message_content resp = some (Json.str s))
    (hparse : parse_json_content s = some (Json.obj kvs))
    (hne : kvs ≠ []) :
    enrich_product_marketing (some resp) now p =
      match apply_marketing_fields kvs resp now p with
      | some (u, p') => some ⟨u, p', true⟩
      | none => none := by
  have hs : s ≠ "" := by
    intro h0
    rw [h0, parse_json_content_empty] at hparse
    exact Option.noConfusion hparse
  have hts : jsonTruthy (Json.str s) = true := by simp [jsonTruthy, hs]
  have hto : jsonTruthy (Json.obj kvs) = true := by
    cases kvs with
    | nil => exact absurd rfl hne
    | cons a l => rfl
  unfold enrich_product_marketing
  rw [hg]
  simp only [Bool.false_eq_true, if_false]
  simp only [enrich_marketing_api, htr, hex, hts, hparse, hto, if_true]

theorem applyMetaTitle_fst_description (t? : Option String) (st : Product × Bool) :
    (applyMetaTitle t? st).1.description = st.1.description := by
  cases t? <;> rfl

theorem applyMetaDescription_fst_description (m? : Option String) (st : Product × Bool) :
    (applyMetaDescription m? st).1.description = st.1.description := by
  cases m? <;> rfl

theorem applyWeight_fst_description (w? : Option Json) (st : Product × Bool) :
    (applyWeight w? st).1.description = st.1.description := by
  rcases w? with _ | jv
  · rfl
  · cases jv <;> try rfl
    rename_i w
    by_cases hw : pyStrip w = "" <;> simp [applyWeight, hw]

theorem applyDescription_fst_meta_title (d? : Option String) (st : Product × Bool) :
    (applyDescription d? st).1.meta_title = st.1.meta_title := by
  cases d? <;> rfl

theorem applyMetaDescription_fst_meta_title (m? : Option String) (st : Product × Bool) :
    (applyMetaDescription m? st).1.meta_title = st.1.meta_title := by
  cases m? <;> rfl

theorem applyWeight_fst_meta_title (w? : Option Json) (st : Product × Bool) :
    (applyWeight w? st).1.meta_title = st.1.meta_title := by
  rcases w? with _ | jv
  · rfl
  · cases jv <;> try rfl
    rename_i w
    by_cases hw : pyStrip w = "" <;> simp [applyWeight, hw]

theorem applyDescription_fst_meta_description (d? : Option String) (st : Product × Bool) :
    (applyDescription d? st).1.meta_description = st.1.meta_description := by
  cases d? <;> rfl

theorem applyMetaTitle_fst_meta_description (t? : Option String) (st : Product × Bool) :
    (applyMetaTitle t? st).1.meta_description = st.1.meta_description := by
  cases t? <;> rfl

theorem applyWeight_fst_meta_description (w? : Option Json) (st : Product × Bool) :
    (applyWeight w? st).1.meta_description = st.1.meta_description := by
  rcases w? with _ | jv
  · rfl
  · cases jv <;> try rfl
    rename_i w
    by_cases hw : pyStrip w = "" <;> simp [applyWeight, hw]

theorem applyMetaTitle_fst_weight (t? : Option String) (st : Product × Bool) :
    (applyMetaTitle t? st).1.weight = st.1.weight := by
  cases t? <;> rfl

theorem applyMetaDescription_fst_weight (m? : Option String) (st : Product × Bool) :
    (applyMetaDescription m? st).1.weight = st.1.weight := by
  cases m? <;> rfl

/-- Marketing fields whose alias lists produce nothing keep their stored
values through the application phase. -/
theorem apply_marketing_fields_retention (kvs : List (String × Json)) (resp : Json)
    (now : Nat) (p : Product) (u : Bool) (p' : Product)
    (h : apply_marketing_fields kvs resp now p = some (u, p')) :
    (get_first_present kvs ["html_description", "descriere"] = none →
      p'.description = p.description) ∧
    (get_first_present kvs ["meta_title", "meta_titlu"] = none →
      p'.meta_title = p.meta_title) ∧
    (get_first_present kvs ["meta_description", "meta_descriere"] = none →
      p'.meta_description = p.meta_description) := by
  have hst :
      p'.description = (applyWeight (alistGet? kvs "weight")
        (applyMetaDescription (get_first_present kvs ["meta_description", "meta_descriere"])
          (applyMetaTitle (get_first_present kvs ["meta_title", "meta_titlu"])
            (applyDescription (get_first_present kvs ["html_description", "descriere"])
              (p, false))))).1.description ∧
      p'.meta_title = (applyWeight (alistGet? kvs "weight")
        (applyMetaDescription (get_first_present kvs ["meta_description", "meta_descriere"])
          (applyMetaTitle (get_first_present kvs ["meta_title", "meta_titlu"])
            (applyDescription (get_first_present kvs ["html_description", "descriere"])
              (p, false))))).1.meta_title ∧
      p'.meta_description = (applyWeight (alistGet? kvs "weight")
        (applyMetaDescription (get_first_present kvs ["meta_description", "meta_descriere"])
          (applyMetaTitle (get_first_present kvs ["meta_title", "meta_titlu"])
            (applyDescription (get_first_present kvs ["html_description", "descriere"])
              (p, false))))).1.meta_description := by
    unfold apply_marketing_fields at h
    dsimp only at h
    set st := applyWeight (alistGet? kvs "weight")
      (applyMetaDescription (get_first_present kvs ["meta_description", "meta_descriere"])
        (applyMetaTitle (get_first_present kvs ["meta_title", "meta_titlu"])
          (applyDescription (get_first_present kvs ["html_description", "descriere"])
            (p, false)))) with hstdef
    by_cases hb : st.2 = true
    · rw [if_pos hb] at h
      split at h
      · exact Option.noConfusion h
      · simp only [Option.some.injEq, Prod.mk.injEq] at h
        rw [← h.2]
        exact ⟨rfl, rfl, rfl⟩
    · rw [if_neg hb] at h
      simp only [Option.some.injEq, Prod.mk.injEq] at h
      rw [← h.2]
      exact ⟨rfl, rfl, rfl⟩
  obtain ⟨hst1, hst2, hst3⟩ := hst
  refine ⟨?_, ?_, ?_⟩ <;> intro hnone
  · rw [hst1, applyWeight_fst_description, applyMetaDescription_fst_description,
      applyMetaTitle_fst_description, hnone]
    rfl
  · rw [hst2, applyWeight_fst_meta_title, applyMetaDescription_fst_meta_title, hnone]
    simp only [applyMetaTitle]
    rw [applyDescription_fst_meta_title]
  · rw [hst3, applyWeight_fst_meta_description, hnone]
    simp only [applyMetaDescription]
    rw [applyMetaTitle_fst_meta_description, applyDescription_fst_meta_description]

/-! Concrete fixtures used by the per-claim theorems below. -/

/-- A chat-completion envelope whose single choice carries `content` and
whose `usage.total_tokens` is `7`. -/
def mkEnvelope (content : String) : Json :=
  Json.obj
    [("choices", Json.arr
      [Json.obj [("message", Json.obj [("content", Json.str content)])]]),
     ("usage", Json.obj [("total_tokens", Json.num 7)])]

/-! Claim theorems.  Each claim of the specification gets exactly one
theorem (plus, where the claim fails on the code, a counterexample at a
concrete input, and for hypotheses a witness instantiation). -/

/-- C1, counterexample: on the one-line fenced input
` ```{"category":"Creatina"}``` ` the fence filter of `clean_json_block`
removes the entire line (it starts with a triple backtick), so
`parse_json_content` yields `none`, not the decoded object the claim
promises. -/
theorem claim_C1_cex :
    parse_json_content "```\x7b\"category\":\"Creatina\"\x7d```" = none ∧
    (none : Option Json) ≠ some (Json.obj [("category", Json.str "Creatina")]) :=
  ⟨rfl, by simp⟩

/-- C1, amended: when the stripped text both starts and ends with a triple
backtick, `decode_json` drops every line starting with a triple backtick,
rejoins and strips the remaining lines and parses them as JSON — so a fenced
payload on its own line decodes to the object, while a payload sharing its
single line with the fence is removed together with it (see the
counterexample). -/
theorem claim_C1_thm :
    parse_json_content "```\n\x7b\"category\":\"Creatina\"\x7d\n```" =
      some (Json.obj [("category", Json.str "Creatina")]) ∧
    ∀ s, strStartsWith (pyStrip s) "```" = true →
      strEndsWith (pyStrip s) "```" = true →
      parse_json_content s = json_loads (pyStrip (joinLines
        ((pySplitlines (pyStrip s)).filter (fun l => !(strStartsWith l "```"))))) := by
  constructor
  · rfl
  · intro s h1 h2
    unfold parse_json_content clean_json_block
    simp [h1, h2]

/-- Witness for C1's amended statement at a concrete fenced input. -/
theorem claim_C1_witness :
    parse_json_content "```\nnull\n```" = json_loads (pyStrip (joinLines
      ((pySplitlines (pyStrip "```\nnull\n```")).filter
        (fun l => !(strStartsWith l "```"))))) :=
  claim_C1_thm.2 "```\nnull\n```" (by decide) (by decide)

/-- C4: if the completion request, the text extraction or the JSON decoding
stage yields an absent result, the marketing step reports `false` and the
classification step (when its guard did not already answer) reports `none`,
and in both cases every field of the product is unchanged.  The completion
request's own exception-safety is embedded in the model: `env` is the
request's result, with `none` standing for any caught transport error. -/
theorem claim_C4_thm (env : Option Json) (now : Nat) (p : Product)
    (habs : stageAbsent env) :
    (enrich_product_marketing env now p).map (fun r => (r.updated, r.product)) =
      some (false, p) ∧
    (optJsonTruthy p.category = false →
      (generate_product_category env p).map (fun r => (r.category, r.product)) =
        some (none, p)) := by
  constructor
  · unfold enrich_product_marketing
    split
    · rfl
    · rw [enrich_marketing_api_stage_absent env now p habs]
      rfl
  · intro hcat
    rw [generate_guard_not_taken env p hcat,
      generate_category_api_stage_absent env p habs]
    rfl

/-- Witness for C4 at an absent completion result on a fresh product. -/
theorem claim_C4_witness :
    ((enrich_product_marketing none 2 (blankProduct "W4" 0)).map
      (fun r => (r.updated, r.product)) = some (false, blankProduct "W4" 0)) ∧
    ((generate_product_category none (blankProduct "W4" 0)).map
      (fun r => (r.category, r.product)) = some (none, blankProduct "W4" 0)) := by
  have h := claim_C4_thm none 2 (blankProduct "W4" 0) (Or.inl rfl)
  exact ⟨h.1, h.2 rfl⟩

/-- C5: a product whose `category` is already non-empty is returned as-is by
the classification step — no completion call (`apiCalled = false`), the
existing value as the result, and the product record untouched. -/
theorem claim_C5_thm (env : Option Json) (p : Product) (c : Json)
    (hc : p.category = some c) (ht : jsonTruthy c = true) :
    generate_product_category env p = some ⟨some c, p, false⟩ :=
  generate_guard_taken env p c hc ht

/-- Witness for C5 on a product already classified as `Creatina`. -/
theorem claim_C5_witness :
    generate_product_category none
      { blankProduct "W5" 0 with category := some (Json.str "Creatina") } =
      some ⟨some (Json.str "Creatina"),
        { blankProduct "W5" 0 with category := some (Json.str "Creatina") }, false⟩ :=
  claim_C5_thm none _ (Json.str "Creatina") rfl (by decide)

/-- C6: a product whose three marketing fields are all non-empty makes the
marketing step return `false` immediately — no completion call and no
change to any field. -/
theorem claim_C6_thm (env : Option Json) (now : Nat) (p : Product)
    (h1 : optStrTruthy p.description = true) (h2 : optStrTruthy p.meta_title = true)
    (h3 : optStrTruthy p.meta_description = true) :
    enrich_product_marketing env now p = some ⟨false, p, false⟩ :=
  enrich_guard_taken env now p h1 h2 h3

/-- Witness for C6 on a fully marketed product. -/
theorem claim_C6_witness :
    enrich_product_marketing none 3
      { blankProduct "W6" 0 with
        description := some "d"
        meta_title := some "t"
        meta_description := some "m" } =
      some ⟨false,
        { blankProduct "W6" 0 with
          description := some "d"
          meta_title := some "t"
          meta_description := some "m" }, false⟩ :=
  claim_C6_thm none 3 _ rfl rfl rfl

/-- Envelope whose content decodes to an object with only a new
`html_description`. -/
def overwriteEnv : Json := mkEnvelope "\x7b\"html_description\":\"new\"\x7d"

/-- A product with a populated `description` but missing meta fields. -/
def partialProduct : Product :=
  { blankProduct "C2" 0 with description := some "old" }

/-- C2, counterexample: a product with a populated `description` but empty
`meta_title`/`meta_description` passes the marketing guard, and a successful
call overwrites the already-populated `description` ("old" becomes "new") —
so marketing fields are not assigned at most once. -/
theorem claim_C2_cex :
    partialProduct.description = some "old" ∧
    enrich_product_marketing (some overwriteEnv) 9 partialProduct =
      some ⟨true,
        { partialProduct with
          description := some "new"
          updated_at := 9
          openai_response := some overwriteEnv
          total_tokens := some (Json.num 7) }, true⟩ :=
  ⟨rfl, rfl⟩

/-- C2, amended: classification is a no-op once `category` is non-empty, and
marketing is a no-op once all three marketing fields are non-empty; but when
the marketing triple is only partially populated, a successful marketing
call may overwrite the populated fields (see the counterexample), so
at-most-once assignment holds only under those guards. -/
theorem claim_C2_thm (env : Option Json) (now : Nat) (p : Product) :
    (∀ c, p.category = some c → jsonTruthy c = true →
      generate_product_category env p = some ⟨some c, p, false⟩) ∧
    (optStrTruthy p.description = true → optStrTruthy p.meta_title = true →
      optStrTruthy p.meta_description = true →
      enrich_product_marketing env now p = some ⟨false, p, false⟩) :=
  ⟨fun c hc ht => generate_guard_taken env p c hc ht,
   fun h1 h2 h3 => enrich_guard_taken env now p h1 h2 h3⟩

/-- A fully enriched product: category and all three marketing fields set. -/
def fullProduct : Product :=
  { blankProduct "C2W" 0 with
    description := some "d"
    meta_title := some "t"
    meta_description := some "m"
    category := some (Json.str "Proteine") }

/-- Witness for C2's amended statement on a fully enriched product. -/
theorem claim_C2_witness :
    generate_product_category none fullProduct =
      some ⟨some (Json.str "Proteine"), fullProduct, false⟩ ∧
    enrich_product_marketing none 4 fullProduct = some ⟨false, fullProduct, false⟩ := by
  have h := claim_C2_thm none 4 fullProduct
  exact ⟨h.1 (Json.str "Proteine") rfl (by decide), h.2 rfl rfl rfl⟩

/-- Envelope whose content decodes to a truthy object with no usable
`category` key. -/
def noCategoryEnv : Json := mkEnvelope "\x7b\"answer\":\"x\"\x7d"

/-- C3, counterexample: a classification call whose payload decodes but
contains no `category` key returns `none` — the caller assigns nothing, so
no product field changes — yet `openai_response` and `total_tokens` are
updated anyway. -/
theorem claim_C3_cex :
    (blankProduct "C3" 0).openai_response = none ∧
    (blankProduct "C3" 0).total_tokens = none ∧
    generate_product_category (some noCategoryEnv) (blankProduct "C3" 0) =
      some ⟨none,
        { blankProduct "C3" 0 with
          openai_response := some noCategoryEnv
          total_tokens := some (Json.num 7) }, true⟩ :=
  ⟨rfl, rfl, rfl⟩

/-- C3, amended: the marketing step updates `openai_response` and
`total_tokens` only when it performed at least one field assignment — a
marketing call reporting no change leaves every field, including those two,
untouched.  The classification step gives no such guarantee: it records the
envelope and token count whenever a truthy payload decodes, even when no
category results (see the counterexample), and an assignment may rewrite an
identical value. -/
theorem claim_C3_thm (env : Option Json) (now : Nat) (p : Product)
    (r : MarketingResult) (h : enrich_product_marketing env now p = some r)
    (hu : r.updated = false) : r.product = p :=
  enrich_no_update_frame env now p r h hu

/-- Witness for C3's amended statement at an absent completion result. -/
theorem claim_C3_witness :
    (⟨false, blankProduct "C3W" 0, true⟩ : MarketingResult).product =
      blankProduct "C3W" 0 :=
  claim_C3_thm none 1 (blankProduct "C3W" 0) ⟨false, blankProduct "C3W" 0, true⟩
    rfl rfl

/-- C7: `parse_price` turns `"12,50"` into `12.5`, maps absent, empty and
non-numeric input to absent, and an upsert whose row price fails to parse
keeps the stored `retail_price` unchanged. -/
theorem claim_C7_thm :
    parse_price (some "12,50") = some ((25 : Rat) / 2) ∧
    parse_price none = none ∧
    parse_price (some "") = none ∧
    parse_price (some "abc") = none ∧
    ∀ env row p now p', parse_price row.retail_price = none →
      process_csv_row env row (some p) now = some (RowOutcome.upserted p') →
      p'.retail_price = p.retail_price := by
  refine ⟨?_, rfl, rfl, rfl, ?_⟩
  · have hv : parse_price (some "12,50") = some (ratOfParts false 12 50 2 0) := rfl
    rw [hv]
    simp only [Option.some.injEq]
    norm_num [ratOfParts]
  intro env row p now p' hnone h
  have hf := process_csv_row_fields env row now p p' h
  rw [hf.2.2.2.2.2.2.1, hnone]
  rfl

/-- Feed row whose price is unparsable. -/
def priceRow : Row :=
  { sku := some "C7", manufacturer_name := none, name := none, qty := none,
    flavour := none, weight := none, img_url := none, retail_price := some "abc" }

/-- Stored product that already carries a parsed price. -/
def pricedProduct : Product :=
  { blankProduct "C7" 0 with retail_price := some ((25 : Rat) / 2) }

/-- Witness for C7's retention clause: upserting `priceRow` over
`pricedProduct` leaves the stored price intact. -/
theorem claim_C7_witness :
    ({ pricedProduct with updated_at := 5 }).retail_price =
      pricedProduct.retail_price :=
  claim_C7_thm.2.2.2.2 none priceRow pricedProduct 5
    { pricedProduct with updated_at := 5 } rfl rfl

/-- C8: an upsert over an existing product applies each feed-derived field
via the present-or-keep rule (`applyOpt`), never turns a present stored
value absent, and always refreshes `updated_at`. -/
theorem claim_C8_thm (env : Option Json) (row : Row) (p : Product) (now : Nat)
    (p' : Product)
    (_hsku : normalise_string row.sku = some p.sku)
    (h : process_csv_row env row (some p) now = some (RowOutcome.upserted p')) :
    p'.manufacturer_name = applyOpt (normalise_string row.manufacturer_name) p.manufacturer_name ∧
    p'.name = applyOpt (normalise_string row.name) p.name ∧
    p'.qty = applyOpt (normalise_string row.qty) p.qty ∧
    p'.flavour = applyOpt (normalise_string row.flavour) p.flavour ∧
    p'.weight = applyOpt (normalise_string row.weight) p.weight ∧
    p'.img_url = applyOpt (normalise_string row.img_url) p.img_url ∧
    p'.retail_price = applyOpt (parse_price row.retail_price) p.retail_price ∧
    (p.manufacturer_name ≠ none → p'.manufacturer_name ≠ none) ∧
    (p.name ≠ none → p'.name ≠ none) ∧
    (p.qty ≠ none → p'.qty ≠ none) ∧
    (p.flavour ≠ none → p'.flavour ≠ none) ∧
    (p.weight ≠ none → p'.weight ≠ none) ∧
    (p.img_url ≠ none → p'.img_url ≠ none) ∧
    (p.retail_price ≠ none → p'.retail_price ≠ none) ∧
    p'.updated_at = now := by
  obtain ⟨f1, f2, f3, f4, f5, f6, f7, f8⟩ := process_csv_row_fields env row now p p' h
  refine ⟨f1, f2, f3, f4, f5, f6, f7, ?_, ?_, ?_, ?_, ?_, ?_, ?_, f8⟩
  · intro hne; rw [f1]; exact applyOpt_ne_none _ _ hne
  · intro hne; rw [f2]; exact applyOpt_ne_none _ _ hne
  · intro hne; rw [f3]; exact applyOpt_ne_none _ _ hne
  · intro hne; rw [f4]; exact applyOpt_ne_none _ _ hne
  · intro hne; rw [f5]; exact applyOpt_ne_none _ _ hne
  · intro hne; rw [f6]; exact applyOpt_ne_none _ _ hne
  · intro hne; rw [f7]; exact applyOpt_ne_none _ _ hne

/-- Feed row mixing present, absent and whitespace-only columns. -/
def feedRow : Row :=
  { sku := some " S8 ", manufacturer_name := some " Acme ", name := none,
    qty := some "7", flavour := some "  ", weight := none, img_url := none,
    retail_price := some "12,50" }

/-- Stored product holding values the partial row must not clear. -/
def storedProduct : Product :=
  { blankProduct "S8" 0 with
    name := some "Old"
    weight := some "2kg" }

/-- The product `feedRow` produces over `storedProduct` at tick 6. -/
def upsertedProduct : Product :=
  { storedProduct with
    manufacturer_name := some "Acme"
    qty := some "7"
    retail_price := some (ratOfParts false 12 50 2 0)
    updated_at := 6 }

/-- Witness for C8 on a partial feed row over a stored product. -/
theorem claim_C8_witness :
    upsertedProduct.manufacturer_name = applyOpt (normalise_string feedRow.manufacturer_name) storedProduct.manufacturer_name ∧
    upsertedProduct.name = applyOpt (normalise_string feedRow.name) storedProduct.name ∧
    upsertedProduct.qty = applyOpt (normalise_string feedRow.qty) storedProduct.qty ∧
    upsertedProduct.flavour = applyOpt (normalise_string feedRow.flavour) storedProduct.flavour ∧
    upsertedProduct.weight = applyOpt (normalise_string feedRow.weight) storedProduct.weight ∧
    upsertedProduct.img_url = applyOpt (normalise_string feedRow.img_url) storedProduct.img_url ∧
    upsertedProduct.retail_price = applyOpt (parse_price feedRow.retail_price) storedProduct.retail_price ∧
    (storedProduct.manufacturer_name ≠ none → upsertedProduct.manufacturer_name ≠ none) ∧
    (storedProduct.name ≠ none → upsertedProduct.name ≠ none) ∧
    (storedProduct.qty ≠ none → upsertedProduct.qty ≠ none) ∧
    (storedProduct.flavour ≠ none → upsertedProduct.flavour ≠ none) ∧
    (storedProduct.weight ≠ none → upsertedProduct.weight ≠ none) ∧
    (storedProduct.img_url ≠ none → upsertedProduct.img_url ≠ none) ∧
    (storedProduct.retail_price ≠ none → upsertedProduct.retail_price ≠ none) ∧
    upsertedProduct.updated_at = 6 :=
  claim_C8_thm none feedRow storedProduct 6 upsertedProduct rfl rfl

/-- A marketing run whose envelope decodes to the empty JSON object stops at
the payload truthiness check. -/
theorem enrich_pipeline_empty (p : Product) (resp : Json) (s : String) (now : Nat)
    (hg : (optStrTruthy p.description && optStrTruthy p.meta_title
      && optStrTruthy p.meta_description) = false)
    (htr : jsonTruthy resp = true)
    (hex : extract_message_content resp = some (Json.str s))
    (hparse : parse_json_content s = some (Json.obj [])) :
    enrich_product_marketing (some resp) now p = some ⟨false, p, true⟩ := by
  have hs : s ≠ "" := by
    intro h0
    rw [h0, parse_json_content_empty] at hparse
    exact Option.noConfusion hparse
  have hts : jsonTruthy (Json.str s) = true := by simp [jsonTruthy, hs]
  unfold enrich_product_marketing
  rw [hg]
  simp only [Bool.false_eq_true, if_false]
  simp only [enrich_marketing_api, htr, hex, hts, hparse, if_true]
  rfl

/-- Envelope whose marketing payload offers a whitespace-only `descriere`. -/
def wsAliasEnv : Json := mkEnvelope
  "\x7b\"descriere\":\" \",\"meta_titlu\":\"T\",\"meta_descriere\":\"M\",\"weight\":\"1kg\"\x7d"

/-- A product still missing its meta fields. -/
def wsAliasProduct : Product :=
  { blankProduct "C9" 0 with description := some "old" }

/-- C9, counterexample: with `descriere = " "` — a non-empty string — the
step does not apply the description (the alias check requires non-whitespace
content after `strip()`), yet still returns true having applied the other
three fields; so "applies all four fields" fails for non-empty but
whitespace-only values. -/
theorem claim_C9_cex :
    (" " : String) ≠ "" ∧
    wsAliasProduct.description = some "old" ∧
    enrich_product_marketing (some wsAliasEnv) 3 wsAliasProduct =
      some ⟨true,
        { wsAliasProduct with
          meta_title := some "T"
          meta_description := some "M"
          weight := some "1kg"
          updated_at := 3
          openai_response := some wsAliasEnv
          total_tokens := some (Json.num 7) }, true⟩ :=
  ⟨by decide, rfl, rfl⟩

/-- C9, amended: for a product with a missing marketing field, a decoded
response `{"descriere": d, "meta_titlu": t, "meta_descriere": m,
"weight": "1kg"}` whose `d`, `t`, `m` contain non-whitespace content makes
`enrich_product_marketing` apply all four fields through the alias fallback
and return true; a field whose aliases are all absent, empty or
whitespace-only keeps its existing value. -/
theorem claim_C9_thm (p : Product) (resp : Json) (s : String) (now : Nat)
    (hg : (optStrTruthy p.description && optStrTruthy p.meta_title
      && optStrTruthy p.meta_description) = false)
    (htr : jsonTruthy resp = true)
    (hex : extract_message_content resp = some (Json.str s)) :
    (∀ (d t m : String) (tt : Option Json),
      parse_json_content s = some (Json.obj
        [("descriere", Json.str d), ("meta_titlu", Json.str t),
         ("meta_descriere", Json.str m), ("weight", Json.str "1kg")]) →
      pyStrip d ≠ "" → pyStrip t ≠ "" → pyStrip m ≠ "" →
      usage_total_tokens resp = some tt →
      enrich_product_marketing (some resp) now p = some ⟨true,
        { p with
          description := some d
          meta_title := some t
          meta_description := some m
          weight := some "1kg"
          updated_at := now
          openai_response := some resp
          total_tokens := tt }, true⟩) ∧
    (∀ (kvs : List (String × Json)) (r : MarketingResult),
      parse_json_content s = some (Json.obj kvs) →
      enrich_product_marketing (some resp) now p = some r →
      (get_first_present kvs ["html_description", "descriere"] = none →
        r.product.description = p.description) ∧
      (get_first_present kvs ["meta_title", "meta_titlu"] = none →
        r.product.meta_title = p.meta_title) ∧
      (get_first_present kvs ["meta_description", "meta_descriere"] = none →
        r.product.meta_description = p.meta_description)) := by
  constructor
  · intro d t m tt hparse hd ht hm htt
    rw [enrich_pipeline p resp s _ now hg htr hex hparse (by simp)]
    have hk1 : pyStrip "1kg" = "1kg" := rfl
    have happly : apply_marketing_fields
        [("descriere", Json.str d), ("meta_titlu", Json.str t),
         ("meta_descriere", Json.str m), ("weight", Json.str "1kg")] resp now p =
        some (true,
          { p with
            description := some d
            meta_title := some t
            meta_description := some m
            weight := some "1kg"
            updated_at := now
            openai_response := some resp
            total_tokens := tt }) := by
      unfold apply_marketing_fields
      simp [get_first_present, alistGet?, applyDescription, applyMetaTitle,
        applyMetaDescription, applyWeight, hd, ht, hm, htt, hk1]
    rw [happly]
  · intro kvs r hparse hr
    by_cases hkvs : kvs = []
    · subst hkvs
      rw [enrich_pipeline_empty p resp s now hg htr hex hparse] at hr
      cases hr
      exact ⟨fun _ => rfl, fun _ => rfl, fun _ => rfl⟩
    · rw [enrich_pipeline p resp s kvs now hg htr hex hparse hkvs] at hr
      cases happly : apply_marketing_fields kvs resp now p with
      | none => rw [happly] at hr; exact Option.noConfusion hr
      | some up =>
        obtain ⟨u, p'⟩ := up
        rw [happly] at hr
        cases hr
        exact apply_marketing_fields_retention kvs resp now p u p' happly

/-- Envelope carrying a full localized marketing payload. -/
def aliasEnv : Json := mkEnvelope
  "\x7b\"descriere\":\"D\",\"meta_titlu\":\"T\",\"meta_descriere\":\"M\",\"weight\":\"1kg\"\x7d"

/-- Witness for C9's amended statement on a fresh product and a full
localized payload. -/
theorem claim_C9_witness :
    enrich_product_marketing (some aliasEnv) 11 (blankProduct "C9W" 0) =
      some ⟨true,
        { blankProduct "C9W" 0 with
          description := some "D"
          meta_title := some "T"
          meta_description := some "M"
          weight := some "1kg"
          updated_at := 11
          openai_response := some aliasEnv
          total_tokens := some (Json.num 7) }, true⟩ :=
  (claim_C9_thm (blankProduct "C9W" 0) aliasEnv
      "\x7b\"descriere\":\"D\",\"meta_titlu\":\"T\",\"meta_descriere\":\"M\",\"weight\":\"1kg\"\x7d"
      11 rfl rfl rfl).1
    "D" "T" "M" (some (Json.num 7)) rfl (by decide) (by decide) (by decide) rfl

/-- C10: in the application phase, `description`, `meta_title` and
`meta_description` are each stored exactly as the decoded string —
surrounding whitespace included, only the *presence* test being
whitespace-sensitive — while `weight` is stored stripped. -/
theorem claim_C10_thm (kvs : List (String × Json)) (resp : Json) (now : Nat)
    (p : Product) (d t m w : String) (tt : Option Json)
    (hd : alistGet? kvs "html_description" = some (Json.str d))
    (hds : pyStrip d ≠ "")
    (ht : alistGet? kvs "meta_title" = some (Json.str t))
    (hts : pyStrip t ≠ "")
    (hm : alistGet? kvs "meta_description" = some (Json.str m))
    (hms : pyStrip m ≠ "")
    (hw : alistGet? kvs "weight" = some (Json.str w))
    (hws : pyStrip w ≠ "")
    (htt : usage_total_tokens resp = some tt) :
    (apply_marketing_fields kvs resp now p).map
      (fun up => (up.2.description, up.2.meta_title, up.2.meta_description,
        up.2.weight)) =
      some (some d, some t, some m, some (pyStrip w)) := by
  have h1 : get_first_present kvs ["html_description", "descriere"] = some d := by
    unfold get_first_present
    simp only [hd]
    rw [if_neg hds]
  have h2 : get_first_present kvs ["meta_title", "meta_titlu"] = some t := by
    unfold get_first_present
    simp only [ht]
    rw [if_neg hts]
  have h3 : get_first_present kvs ["meta_description", "meta_descriere"] = some m := by
    unfold get_first_present
    simp only [hm]
    rw [if_neg hms]
  unfold apply_marketing_fields
  rw [h1, h2, h3, hw]
  simp [applyDescription, applyMetaTitle, applyMetaDescription, applyWeight,
    hws, htt]

/-- Decoded payload framing every text value in whitespace. -/
def paddedPayload : List (String × Json) :=
  [("html_description", Json.str " Desc "), ("meta_title", Json.str " T "),
   ("meta_description", Json.str " M "), ("weight", Json.str " 1kg ")]

/-- Witness for C10: `" Desc "`, `" T "` and `" M "` are stored verbatim
while `" 1kg "` is stored as `"1kg"`. -/
theorem claim_C10_witness :
    (apply_marketing_fields paddedPayload (Json.obj []) 4 (blankProduct "C10" 0)).map
      (fun up => (up.2.description, up.2.meta_title, up.2.meta_description,
        up.2.weight)) =
      some (some " Desc ", some " T ", some " M ", some "1kg") :=
  claim_C10_thm paddedPayload (Json.obj []) 4 (blankProduct "C10" 0)
    " Desc " " T " " M " " 1kg " none rfl (by decide) rfl (by decide) rfl
    (by decide) rfl (by decide) rfl

end Dropimator
